import Mathlib

/-!
Shallow embedding of the DFA engine in `src/dfa.cpp` (arush15june/DFA-CPP).

The C++ program has three parts, all embedded below:
  * `StateDiagram` — a fixed array `std::array<std::vector<std::pair<int,int>>, MAXVERT+1>`
    of adjacency lists (pair = (edge weight = input symbol, target state)),
    with accessor `getState`, mutator `insertEdge`, and diagnostic counters.
    C++ indexes the array with a plain `int`; indices outside `0..MAXVERT`
    are out-of-bounds accesses (undefined behavior), modelled here by `Option`
    (`none` = the access has no defined result).
  * `DFA` — initial state `q`, final state `f`, the diagram, and the method
    `execute` that scans each symbol's adjacency list and takes the first pair
    whose weight equals the symbol AND whose target differs from the current
    state; when no such pair exists the current state is unchanged.
  * `build_dfa_from_file` — a line-oriented parser.  The C++ performs no
    error handling at all: `std::stoi` throws (uncaught) on non-numeric text,
    and `std::vector::operator[]` past the end is undefined behavior.  Both
    are modelled as `Except.error` outcomes of the corresponding `BuildErr`
    kind; the success path is translated statement by statement.

Machine integers are modelled as `Int` (no arithmetic in the program can
overflow 32-bit ints except `std::stoi` itself, whose range check is part of
the `stoi` model below).  Input strings are modelled as lists of symbol
values (`List Int`); the C++ obtains each value as `int(symbol)` from a `char`.
-/

namespace DFACpp

/-- `#define MAXVERT 1000` — the adjacency array has `MAXVERT+1` slots, valid
indices `0..MAXVERT`. -/
def MAXVERT : Int := 1000

/-- `struct StateDiagram`: the adjacency array (slot `i` = outgoing list of
state `i`, each entry `(weight, target)`), the out-degree array, and the two
diagnostic counters.  The arrays are total maps guarded by the bounds check
at every access point (`getState`, `insertEdge`, the `degree` write), which
is exactly where the C++ would go out of bounds. -/
structure StateDiagram where
  states : Int → List (Int × Int)
  degree : Int → Int
  nvertices : Int
  nedges : Int

/-- `StateDiagram()` default constructor: empty adjacency lists,
`nvertices = nedges = 0`.  (The C++ leaves `degree` entries indeterminate;
they are diagnostic-only and never read by the program, we pick 0.) -/
def emptyStateDiagram : StateDiagram :=
  { states := fun _ => [], degree := fun _ => 0, nvertices := 0, nedges := 0 }

/-- `StateDiagram::getState(int index) { return states[index]; }` —
returns (a copy of) the adjacency list of `index`; the array access is
defined only for `0 ≤ index ≤ MAXVERT`. -/
def getState (sd : StateDiagram) (index : Int) : Option (List (Int × Int)) :=
  if 0 ≤ index ∧ index ≤ MAXVERT then some (sd.states index) else none

/-- `StateDiagram::insertEdge(int state_no, int weight, int y)` —
`states[state_no].push_back(make_pair(weight, y))`; the array access is
defined only for `0 ≤ state_no ≤ MAXVERT`. -/
def insertEdge (sd : StateDiagram) (state_no weight y : Int) : Option StateDiagram :=
  if 0 ≤ state_no ∧ state_no ≤ MAXVERT then
    some { sd with
           states := fun i => if i = state_no then sd.states i ++ [(weight, y)] else sd.states i }
  else none

/-- Write `degree[state] = deg` (line 295 of the source); the array access is
defined only for `0 ≤ state ≤ MAXVERT`. -/
def setDegree (sd : StateDiagram) (state deg : Int) : Option StateDiagram :=
  if 0 ≤ state ∧ state ≤ MAXVERT then
    some { sd with degree := fun i => if i = state then deg else sd.degree i }
  else none

/-- The inner loop of `DFA::execute` (lines 133–138): scan the adjacency
list in order; the first pair with `state.first == symbol_val and
state.second != current_state` is taken (`current_state = state.second;
break;`); if none matches, `current_state` is unchanged.  The comparison is
against the value of `current_state` at loop entry, since the loop breaks
immediately upon assigning it. -/
def stepAdj (adj : List (Int × Int)) (cur sym : Int) : Int :=
  match adj with
  | [] => cur
  | p :: rest => if p.1 = sym ∧ p.2 ≠ cur then p.2 else stepAdj rest cur sym

/-- One iteration of the outer loop of `DFA::execute`: fetch the adjacency
list of the current state (`state_diagram.getState(current_state)`, an array
access that must be in bounds) and scan it. -/
def stepState (sd : StateDiagram) (cur sym : Int) : Option Int :=
  (getState sd cur).map (fun adj => stepAdj adj cur sym)

/-- The outer loop of `DFA::execute` (lines 129–139), starting from state
`cur`, consuming the input symbols in order. -/
def runFrom (sd : StateDiagram) (cur : Int) : List Int → Option Int
  | [] => some cur
  | s :: rest =>
    match stepState sd cur s with
    | none => none
    | some c => runFrom sd c rest

/-- `class DFA`: the state diagram, initial state `q`, final state `f`. -/
structure DFA where
  state_diagram : StateDiagram
  q : Int
  f : Int

/-- `DFA::execute(std::string input)`: run the loop from `q` over the
input; return `final_state_reached`, i.e. whether the state after consuming
the whole input equals `f`. -/
def DFA.execute (d : DFA) (input : List Int) : Option Bool :=
  (runFrom d.state_diagram d.q input).map (fun c => decide (c = d.f))

/-- State-threaded translation of `DFA::execute` member-call structure, used
to express the frame property: the only member call, `getState`, contains no
write to the object (its body is the single statement `return states[index];`),
so each call returns the diagram unchanged alongside its result. -/
def getStateM (sd : StateDiagram) (index : Int) :
    Option (List (Int × Int) × StateDiagram) :=
  if 0 ≤ index ∧ index ≤ MAXVERT then some (sd.states index, sd) else none

/-- The loop of `DFA::execute` with the diagram threaded through every
member call, so the final diagram is observable. -/
def runFromM (sd : StateDiagram) (cur : Int) : List Int → Option (Int × StateDiagram)
  | [] => some (cur, sd)
  | s :: rest =>
    match getStateM sd cur with
    | none => none
    | some (adj, sd1) => runFromM sd1 (stepAdj adj cur s) rest

/-- `DFA::execute` with the whole object threaded: the result together with
the object state after the call (`q` and `f` are never assigned in the
method body; the diagram is whatever the threaded loop returns). -/
def DFA.executeM (d : DFA) (input : List Int) : Option (Bool × DFA) :=
  match runFromM d.state_diagram d.q input with
  | none => none
  | some (c, sd1) =>
    some (decide (c = d.f), { state_diagram := sd1, q := d.q, f := d.f })

/-! ## The parser (`split`, `trim_copy`, `std::stoi`, `build_dfa_from_file`) -/

/-- `split(const std::string&, char delim)` (lines 174–183): repeated
`std::getline` on a stringstream.  Tokens are the maximal delimiter-free
segments; a trailing delimiter (or an empty string) produces no trailing
empty token, because the final `getline` hits end-of-stream and fails. -/
def split : List Char → Char → List (List Char)
  | [], _ => []
  | c :: cs, d =>
    if c = d then [] :: split cs d
    else
      match split cs d with
      | [] => [[c]]
      | t :: ts => (c :: t) :: ts

/-- The whitespace class of `std::isspace` in the default locale, used by
the `trim` helpers. -/
def isSpaceCpp (c : Char) : Bool :=
  c = ' ' || c = '\t' || c = '\n' || c = '\x0b' || c = '\x0c' || c = '\r'

/-- `trim_copy` (lines 219–222): drop leading and trailing `isspace`
characters. -/
def trim_copy (s : List Char) : List Char :=
  ((s.dropWhile isSpaceCpp).reverse.dropWhile isSpaceCpp).reverse

/-- Numeric value of a digit run (most significant first). -/
def digitsToInt (l : List Char) : Int :=
  l.foldl (fun acc c => 10 * acc + ((c.toNat : Int) - 48)) 0

def INT_MAX : Int := 2147483647
def INT_MIN : Int := -2147483648

/-- `std::stoi` (base 10): skip leading whitespace, optional sign, then a
non-empty digit run (trailing junk ignored).  `none` models both failure
modes, each an exception the program never catches: `std::invalid_argument`
when no digits are found and `std::out_of_range` when the value exceeds the
`int` range. -/
def stoi (s : List Char) : Option Int :=
  let body := fun (neg : Bool) (rest : List Char) =>
    let ds := rest.takeWhile Char.isDigit
    if ds = [] then none
    else
      let v : Int := if neg then -(digitsToInt ds) else digitsToInt ds
      if v < INT_MIN ∨ INT_MAX < v then none else some v
  match s.dropWhile isSpaceCpp with
  | '-' :: rest => body true rest
  | '+' :: rest => body false rest
  | rest => body false rest

/-- Failure outcomes of `build_dfa_from_file`.  The C++ has no error
handling: each constructor names the concrete way the C++ run is not a
normal completion. -/
inductive BuildErr where
  /-- `std::stoi` threw (`std::invalid_argument` or `std::out_of_range`);
  the exception is never caught. -/
  | stoiFailure : BuildErr
  /-- `std::vector::operator[]` (or the adjacency array) was indexed out of
  bounds: undefined behavior. -/
  | oobIndex : BuildErr
  /-- `DFA::q` or `DFA::f` would be read without ever having been assigned
  (fewer than two input lines): indeterminate value, undefined behavior. -/
  | uninitMember : BuildErr
deriving DecidableEq

/-- The inner pair loop of a transition line (lines 284–294): for each
`|`-separated piece, trim it, split at `' '`, parse `split_pair[0]` and
`split_pair[1]` as integers (in that order, each a possible `stoi` throw,
each index a possible out-of-bounds access), and `insertEdge`.  Returns the
updated diagram together with the edge and degree counters. -/
def pairLoop (state : Int) : List (List Char) → StateDiagram → Int → Int →
    Except BuildErr (StateDiagram × Int × Int)
  | [], sd, ne, deg => .ok (sd, ne, deg)
  | p :: rest, sd, ne, deg =>
    let sp := split (trim_copy p) ' '
    match sp[0]? with
    | none => .error .oobIndex
    | some w0 =>
      match stoi w0 with
      | none => .error .stoiFailure
      | some weight =>
        match sp[1]? with
        | none => .error .oobIndex
        | some w1 =>
          match stoi w1 with
          | none => .error .stoiFailure
          | some y =>
            match insertEdge sd state weight y with
            | none => .error .oobIndex
            | some sd1 => pairLoop state rest sd1 (ne + 1) (deg + 1)

/-- One transition line (lines 277–295): split at `':'`, parse
`split_at_colon[0]` as the source state, split `split_at_colon[1]` at `'|'`,
run the pair loop, then write `degree[state]`.  Each index and each `stoi`
can fail as in the C++. -/
def transLine (sd : StateDiagram) (line : List Char) (ne : Int) :
    Except BuildErr (StateDiagram × Int) :=
  let sc := split line ':'
  match sc[0]? with
  | none => .error .oobIndex
  | some s0 =>
    match stoi s0 with
    | none => .error .stoiFailure
    | some state =>
      match sc[1]? with
      | none => .error .oobIndex
      | some s1 =>
        match pairLoop state (split s1 '|') sd ne 0 with
        | .error e => .error e
        | .ok (sd1, ne1, deg) =>
          match setDegree sd1 state deg with
          | none => .error .oobIndex
          | some sd2 => .ok (sd2, ne1)

/-- Accumulator of the `while(getline(...))` loop of `build_dfa_from_file`:
the diagram being built, the initial/final states once their lines have been
seen, and the `nvertices`/`nedges` counters.  (In the C++ the two counters
are declared without an initializer and read before being written — an
uninitialized read flagged by the spec as diagnostic-only; the model counts
from 0.) -/
structure BuildAcc where
  sd : StateDiagram
  q : Option Int
  f : Option Int
  nv : Int
  ne : Int

/-- The line loop of `build_dfa_from_file` (lines 257–298): line 0 is the
initial state, line 1 the final state (each a `std::stoi` that can throw),
every further line a transition line. -/
def processLines : List String → Nat → BuildAcc → Except BuildErr BuildAcc
  | [], _, acc => .ok acc
  | line :: rest, counter, acc =>
    if counter = 0 then
      match stoi line.data with
      | none => .error .stoiFailure
      | some v => processLines rest (counter + 1) { acc with q := some v }
    else if counter = 1 then
      match stoi line.data with
      | none => .error .stoiFailure
      | some v => processLines rest (counter + 1) { acc with f := some v }
    else
      match transLine acc.sd line.data acc.ne with
      | .error e => .error e
      | .ok (sd1, ne1) =>
        processLines rest (counter + 1) { acc with sd := sd1, ne := ne1, nv := acc.nv + 1 }

/-- `build_dfa_from_file` (lines 224–305), over the lines of the file (the
`ifstream`/`getline` I/O is outside the model): run the line loop, store the
counters into the diagram, and return the `DFA`.  If fewer than two lines
were present, `q`/`f` of the default-constructed `DFA` were never assigned
and the later reads of them are reads of indeterminate values
(`BuildErr.uninitMember`). -/
def build_dfa_from_file (lines : List String) : Except BuildErr DFA :=
  match processLines lines 0
      { sd := emptyStateDiagram, q := none, f := none, nv := 0, ne := 0 } with
  | .error e => .error e
  | .ok acc =>
    match acc.q, acc.f with
    | some qv, some fv =>
      .ok { state_diagram := { acc.sd with nvertices := acc.nv, nedges := acc.ne },
            q := qv, f := fv }
    | _, _ => .error .uninitMember

/-! ## Concrete automata used as witnesses and counterexamples -/

/-- A diagram with the single transition (1, 97, 2). -/
def sdW : StateDiagram :=
  { states := fun i => if i = 1 then [(97, 2)] else [],
    degree := fun _ => 0, nvertices := 0, nedges := 0 }

/-- Automaton over `sdW` with initial state 1 and final state 2. -/
def dW : DFA := { state_diagram := sdW, q := 1, f := 2 }

/-- The same automaton as `dW`, declared separately. -/
def dW' : DFA := { state_diagram := sdW, q := 1, f := 2 }

/-- Automaton with no transitions at all, initial and final state 0. -/
def dEmpty : DFA := { state_diagram := emptyStateDiagram, q := 0, f := 0 }

/-- A diagram whose state 1 carries a self-loop on symbol 97 followed by a
second transition on 97 to state 2. -/
def sdCE1 : StateDiagram :=
  { states := fun i => if i = 1 then [(97, 1), (97, 2)] else [],
    degree := fun _ => 0, nvertices := 0, nedges := 0 }

/-- A diagram whose state 1 carries only the self-loop (1, 97, 1). -/
def sdLoop : StateDiagram :=
  { states := fun i => if i = 1 then [(97, 1)] else [],
    degree := fun _ => 0, nvertices := 0, nedges := 0 }

/-- `emptyStateDiagram` after `insertEdge 1 97 2` (the value produced by
`insertEdge`, spelled out so the equation holds definitionally). -/
def sdW6a : StateDiagram :=
  { emptyStateDiagram with
    states := fun i =>
      if i = (1 : Int) then emptyStateDiagram.states i ++ [((97 : Int), (2 : Int))]
      else emptyStateDiagram.states i }

/-- `sdW6a` after `insertEdge 1 97 3`. -/
def sdW6b : StateDiagram :=
  { sdW6a with
    states := fun i =>
      if i = (1 : Int) then sdW6a.states i ++ [((97 : Int), (3 : Int))]
      else sdW6a.states i }

/-! ## Helper lemmas about the execution loop -/

/-- The scan returns the current state when no list entry satisfies the
taken-condition (symbol matches and target differs). -/
lemma stepAdj_no_match (adj : List (Int × Int)) (cur sym : Int)
    (h : ∀ p ∈ adj, ¬(p.1 = sym ∧ p.2 ≠ cur)) : stepAdj adj cur sym = cur := by
  induction adj with
  | nil => rfl
  | cons p rest ih =>
    rw [stepAdj, if_neg (h p (List.mem_cons_self p rest))]
    exact ih fun p hp => h p (List.mem_cons_of_mem _ hp)

/-- Entries that do not satisfy the taken-condition are skipped by the scan. -/
lemma stepAdj_append_skip (l1 l2 : List (Int × Int)) (cur sym : Int)
    (h : ∀ p ∈ l1, ¬(p.1 = sym ∧ p.2 ≠ cur)) :
    stepAdj (l1 ++ l2) cur sym = stepAdj l2 cur sym := by
  induction l1 with
  | nil => rfl
  | cons p rest ih =>
    rw [List.cons_append, stepAdj, if_neg (h p (List.mem_cons_self p rest))]
    exact ih fun p hp => h p (List.mem_cons_of_mem _ hp)

/-- The scan result is either the unchanged current state or the target of
some list entry. -/
lemma stepAdj_result_mem (adj : List (Int × Int)) (cur sym : Int) :
    stepAdj adj cur sym = cur ∨ ∃ p ∈ adj, stepAdj adj cur sym = p.2 := by
  induction adj with
  | nil => exact Or.inl rfl
  | cons p rest ih =>
    rw [stepAdj]
    by_cases h : p.1 = sym ∧ p.2 ≠ cur
    · exact Or.inr ⟨p, List.mem_cons_self p rest, by rw [if_pos h]⟩
    · rw [if_neg h]
      rcases ih with h1 | ⟨p1, hp1, he⟩
      · exact Or.inl h1
      · exact Or.inr ⟨p1, List.mem_cons_of_mem _ hp1, he⟩

/-- The scan is the first-match search of the list: it returns the target of
the first entry whose symbol equals `sym` and whose target differs from
`cur`, and `cur` when there is none. -/
lemma stepAdj_eq_find (adj : List (Int × Int)) (cur sym : Int) :
    stepAdj adj cur sym =
      match adj.find? (fun p => p.1 == sym && p.2 != cur) with
      | some p => p.2
      | none => cur := by
  induction adj with
  | nil => rfl
  | cons p rest ih =>
    rw [stepAdj, List.find?]
    by_cases h : p.1 = sym ∧ p.2 ≠ cur
    · have hb : (p.1 == sym && p.2 != cur) = true := by
        simp [bne, h.1, h.2]
      rw [if_pos h, hb]
    · have hb : (p.1 == sym && p.2 != cur) = false := by
        by_contra hc
        simp only [Bool.not_eq_false, Bool.and_eq_true, beq_iff_eq, bne_iff_ne] at hc
        exact h hc
      rw [if_neg h, hb]
      exact ih

/-- The execution loop distributes over concatenation of the input. -/
lemma runFrom_append (sd : StateDiagram) (cur : Int) (s1 s2 : List Int) :
    runFrom sd cur (s1 ++ s2) =
      (runFrom sd cur s1).bind fun c => runFrom sd c s2 := by
  induction s1 generalizing cur with
  | nil => rfl
  | cons s rest ih =>
    rw [List.cons_append, runFrom, runFrom]
    cases stepState sd cur s with
    | none => rfl
    | some c => exact ih c

/-- The state-threaded loop computes the same state as the plain loop and
returns the diagram it was given. -/
lemma runFromM_eq (sd : StateDiagram) (cur : Int) (l : List Int) :
    runFromM sd cur l = (runFrom sd cur l).map fun c => (c, sd) := by
  induction l generalizing cur with
  | nil => rfl
  | cons s rest ih =>
    rw [runFromM, runFrom, stepState, getState, getStateM]
    by_cases h : 0 ≤ cur ∧ cur ≤ MAXVERT
    · rw [if_pos h, if_pos h]
      exact ih (stepAdj (sd.states cur) cur s)
    · rw [if_neg h, if_neg h]
      rfl

/-- If every transition target in the diagram is within the array bounds and
the loop starts within bounds, it completes and stays within bounds. -/
lemma runFrom_total (input : List Int) (sd : StateDiagram) (cur : Int)
    (h0 : 0 ≤ cur) (h1 : cur ≤ MAXVERT)
    (htgt : ∀ i p, p ∈ sd.states i → 0 ≤ p.2 ∧ p.2 ≤ MAXVERT) :
    ∃ c, runFrom sd cur input = some c ∧ 0 ≤ c ∧ c ≤ MAXVERT := by
  induction input generalizing cur with
  | nil => exact ⟨cur, rfl, h0, h1⟩
  | cons s rest ih =>
    have hget : getState sd cur = some (sd.states cur) := by
      rw [getState, if_pos ⟨h0, h1⟩]
    have hnext : 0 ≤ stepAdj (sd.states cur) cur s ∧ stepAdj (sd.states cur) cur s ≤ MAXVERT := by
      rcases stepAdj_result_mem (sd.states cur) cur s with he | ⟨p, hp, he⟩
      · rw [he]; exact ⟨h0, h1⟩
      · rw [he]; exact htgt cur p hp
    obtain ⟨c, hc, hc0, hc1⟩ := ih (stepAdj (sd.states cur) cur s) hnext.1 hnext.2
    refine ⟨c, ?_, hc0, hc1⟩
    rw [runFrom, stepState, hget]
    exact hc

/-! ## Helper lemmas about `insertEdge` and the builder -/

/-- A successful `insertEdge` appends the new pair to the source's list,
leaves every other list unchanged, and implies the source is in bounds. -/
lemma insertEdge_some {sd sd1 : StateDiagram} {state_no weight y : Int}
    (h : insertEdge sd state_no weight y = some sd1) :
    (0 ≤ state_no ∧ state_no ≤ MAXVERT) ∧
    sd1.states state_no = sd.states state_no ++ [(weight, y)] ∧
    ∀ i, i ≠ state_no → sd1.states i = sd.states i := by
  rw [insertEdge] at h
  by_cases hb : 0 ≤ state_no ∧ state_no ≤ MAXVERT
  · rw [if_pos hb, Option.some_inj] at h
    refine ⟨hb, ?_, ?_⟩
    · rw [← h]; simp
    · intro i hi; rw [← h]; simp [hi]
  · rw [if_neg hb] at h
    exact absurd h (by simp)

/-- Splitting a non-empty delimiter-free string yields that string as the
single token. -/
lemma split_no_delim (l : List Char) (d : Char) (hne : l ≠ []) (h : d ∉ l) :
    split l d = [l] := by
  induction l with
  | nil => exact absurd rfl hne
  | cons c cs ih =>
    simp only [List.mem_cons, not_or] at h
    have hcd : c ≠ d := fun hh => h.1 (hh ▸ rfl)
    rw [split, if_neg hcd]
    cases cs with
    | nil => rfl
    | cons c1 cs1 => rw [ih (List.cons_ne_nil c1 cs1) h.2]

/-- A transition line without a colon makes `transLine` fail: an empty line
hits the out-of-bounds access `split_at_colon[0]`; a non-empty one either
makes `std::stoi` throw or hits the out-of-bounds access
`split_at_colon[1]`. -/
lemma transLine_no_colon (sd : StateDiagram) (line : List Char) (ne : Int)
    (h : ':' ∉ line) : ∃ e, transLine sd line ne = .error e := by
  cases hl : line with
  | nil => exact ⟨.oobIndex, rfl⟩
  | cons c cs =>
    rw [← hl]
    have hs : split line ':' = [line] :=
      split_no_delim line ':' (by rw [hl]; exact List.cons_ne_nil c cs) h
    rw [transLine, hs]
    simp only [List.getElem?_cons_zero, List.getElem?_cons_succ, List.getElem?_nil]
    cases stoi line with
    | none => exact ⟨.stoiFailure, rfl⟩
    | some v => exact ⟨.oobIndex, rfl⟩

/-- If some line at position `i` of the remaining input, processed at
counter value `counter + i ≥ 2`, lacks a colon, the line loop fails. -/
lemma processLines_err (lines : List String) :
    ∀ (counter : Nat) (acc : BuildAcc) (i : Nat) (h : i < lines.length),
      2 ≤ counter + i → ':' ∉ (lines.get ⟨i, h⟩).data →
      ∃ e, processLines lines counter acc = .error e := by
  induction lines with
  | nil => intro counter acc i h; exact absurd h (Nat.not_lt_zero i)
  | cons line rest ih =>
    intro counter acc i h hci hcolon
    cases i with
    | zero =>
      have hc0 : ¬counter = 0 := by omega
      have hc1 : ¬counter = 1 := by omega
      rw [processLines, if_neg hc0, if_neg hc1]
      obtain ⟨e, he⟩ := transLine_no_colon acc.sd line.data acc.ne hcolon
      rw [he]
      exact ⟨e, rfl⟩
    | succ j =>
      have hj : j < rest.length := Nat.lt_of_succ_lt_succ h
      have hcolon1 : ':' ∉ (rest.get ⟨j, hj⟩).data := hcolon
      have hnext : 2 ≤ (counter + 1) + j := by omega
      rw [processLines]
      by_cases hc0 : counter = 0
      · rw [if_pos hc0]
        cases stoi line.data with
        | none => exact ⟨.stoiFailure, rfl⟩
        | some v => exact ih (counter + 1) _ j hj hnext hcolon1
      · rw [if_neg hc0]
        by_cases hc1 : counter = 1
        · rw [if_pos hc1]
          cases stoi line.data with
          | none => exact ⟨.stoiFailure, rfl⟩
          | some v => exact ih (counter + 1) _ j hj hnext hcolon1
        · rw [if_neg hc1]
          cases transLine acc.sd line.data acc.ne with
          | error e => exact ⟨e, rfl⟩
          | ok p => exact ih (counter + 1) _ j hj hnext hcolon1

/-! ## Claim theorems -/

/-- C1 (counterexample): the claim's universal self-loop consequence fails.
In the diagram whose state 1 has the outgoing list `[(97, 1), (97, 2)]`, the
self-loop transition (1, 97, 1) is present and the current state is 1, yet
consuming symbol 97 moves the automaton to state 2 (the self-loop pair is
skipped and the later pair on the same symbol is taken), so the current
state does change. -/
theorem C1_counterexample :
    ((97 : Int), (1 : Int)) ∈ sdCE1.states 1 ∧
    runFrom sdCE1 1 [97] = some 2 ∧ ¬((2 : Int) = 1) := by
  refine ⟨?_, rfl, by decide⟩
  simp [sdCE1]

/-- C1 (amended): for each input symbol the engine scans the current
state's outgoing list in insertion order and takes the first pair whose
symbol equals the input symbol and whose target differs from the current
state; in particular, when a self-loop (q, s, q) is present and every pair
on symbol s in q's list targets q itself, consuming s does not change the
current state. -/
theorem C1_scan_first_match (sd : StateDiagram) (cur s : Int)
    (adj : List (Int × Int)) (hadj : getState sd cur = some adj) :
    stepState sd cur s =
      some (match adj.find? (fun p => p.1 == s && p.2 != cur) with
            | some p => p.2
            | none => cur) ∧
    ((s, cur) ∈ adj → (∀ p ∈ adj, p.1 = s → p.2 = cur) →
      runFrom sd cur [s] = some cur) := by
  have hstep : stepState sd cur s = some (stepAdj adj cur s) := by
    rw [stepState, hadj, Option.map_some']
  constructor
  · rw [hstep, stepAdj_eq_find]
  · intro _ hall
    have hmiss : ∀ p ∈ adj, ¬(p.1 = s ∧ p.2 ≠ cur) :=
      fun p hp hc => hc.2 (hall p hp hc.1)
    rw [runFrom, hstep, stepAdj_no_match adj cur s hmiss]
    rfl

/-- C1 (witness): in the diagram whose state 1 has the single self-loop
(1, 97, 1), consuming 97 at state 1 leaves the state at 1. -/
theorem C1_witness : runFrom sdLoop 1 [97] = some 1 :=
  (C1_scan_first_match sdLoop 1 97 [(97, 1)] rfl).2 (by decide) (by decide)

/-- C2 (counterexample): the claim's unrestricted totality fails.  The
description below builds successfully (initial state 1001, accepting state
2, one transition line for state 1), yet evaluating the one-symbol input 97
indexes the adjacency array at 1001 — past its last slot `MAXVERT = 1000` —
an out-of-bounds access with no defined result, modelled as `none`. -/
theorem C2_counterexample :
    (build_dfa_from_file ["1001", "2", "1: 97 2"]).map (fun d => d.execute [97]) =
      .ok none := rfl

/-- C2 (amended): evaluate is total — it terminates with a boolean and
cannot fail — for every automaton whose initial state and transition
targets all lie within the adjacency-array bounds `0..MAXVERT`, and every
finite input; unmatched symbols stall rather than fail. -/
theorem C2_total_within_bounds (d : DFA) (input : List Int)
    (h0 : 0 ≤ d.q) (h1 : d.q ≤ MAXVERT)
    (htgt : ∀ i p, p ∈ d.state_diagram.states i → 0 ≤ p.2 ∧ p.2 ≤ MAXVERT) :
    ∃ b, d.execute input = some b := by
  obtain ⟨c, hc, -, -⟩ := runFrom_total input d.state_diagram d.q h0 h1 htgt
  exact ⟨decide (c = d.f), by rw [DFA.execute, hc, Option.map_some']⟩

/-- C2 (witness): the transitionless automaton with initial and accepting
state 0 evaluates any input to a boolean. -/
theorem C2_witness : ∃ b, dEmpty.execute [97] = some b :=
  C2_total_within_bounds dEmpty [97] (by decide) (by decide)
    (by
      intro i p hp
      dsimp [dEmpty, emptyStateDiagram] at hp
      simp at hp)

/-- C3 (counterexample): on the description whose third line is
`1 97 2` (no colon), the builder does fail, but the failure is the
out-of-bounds `std::vector` access `split_at_colon[1]` — undefined
behavior — not a `FormatError`: the program has no error type at all and
produces no diagnostic referencing the line. -/
theorem C3_counterexample :
    build_dfa_from_file ["1", "2", "1 97 2"] = .error .oobIndex := rfl

/-- C3 (amended): for every description text containing, at line index 2 or
later, a transition line that lacks the `:` separator, the builder fails
rather than building a table — in the C++ via an out-of-bounds vector
access (undefined behavior) or an uncaught `std::stoi` exception, not via a
typed `FormatError` referencing the line. -/
theorem C3_missing_colon_fails (lines : List String) (i : Nat)
    (h : i < lines.length) (h2 : 2 ≤ i)
    (hcolon : ':' ∉ (lines.get ⟨i, h⟩).data) :
    ∃ e, build_dfa_from_file lines = .error e := by
  obtain ⟨e, he⟩ := processLines_err lines 0
    { sd := emptyStateDiagram, q := none, f := none, nv := 0, ne := 0 }
    i h (by omega) hcolon
  exact ⟨e, by rw [build_dfa_from_file, he]⟩

/-- C3 (witness): the description `1` / `2` / `1 97 2` makes the builder
fail. -/
theorem C3_witness : ∃ e, build_dfa_from_file ["1", "2", "1 97 2"] = .error e :=
  C3_missing_colon_fails ["1", "2", "1 97 2"] 2 (by decide) (by decide) (by decide)

/-- C4: evaluate returns true exactly when the state after consuming the
entire input equals the accepting identifier, and the run has no early
exit: past any prefix it continues from the state that prefix reached, so
only the final state decides the result. -/
theorem C4_accept_iff_final (d : DFA) (input : List Int) :
    (d.execute input = some true ↔
      runFrom d.state_diagram d.q input = some d.f) ∧
    (∀ s1 s2 c1, input = s1 ++ s2 →
      runFrom d.state_diagram d.q s1 = some c1 →
      runFrom d.state_diagram d.q input = runFrom d.state_diagram c1 s2) := by
  constructor
  · rw [DFA.execute]
    cases h : runFrom d.state_diagram d.q input with
    | none => simp
    | some c => simp [decide_eq_true_eq]
  · intro s1 s2 c1 hin h1
    rw [hin, runFrom_append, h1]
    rfl

/-- C4 (witness): on the automaton `dW`, the run over `[97, 98]` continues
from state 2, the state its prefix `[97]` reaches. -/
theorem C4_witness :
    runFrom dW.state_diagram dW.q [97, 98] = runFrom dW.state_diagram 2 [98] :=
  (C4_accept_iff_final dW [97, 98]).2 [97] [98] 2 rfl (by decide)

/-- C5: stall-on-miss — when no pair of the current state's outgoing list
is takeable for symbol s (no symbol match with a differing target),
evaluating the one-symbol input `[s]` from initial state q leaves the
automaton in q, and acceptance equals `q == accepting`. -/
theorem C5_stall_on_miss (d : DFA) (s : Int) (adj : List (Int × Int))
    (hadj : getState d.state_diagram d.q = some adj)
    (hmiss : ∀ p ∈ adj, ¬(p.1 = s ∧ p.2 ≠ d.q)) :
    runFrom d.state_diagram d.q [s] = some d.q ∧
    d.execute [s] = some (decide (d.q = d.f)) := by
  have hstep : stepState d.state_diagram d.q s = some d.q := by
    rw [stepState, hadj, Option.map_some', stepAdj_no_match adj d.q s hmiss]
  constructor
  · rw [runFrom, hstep]; rfl
  · rw [DFA.execute, runFrom, hstep]; rfl

/-- C5 (witness): `dW` has no transition on symbol 98 at its initial state
1, so input `[98]` stalls at 1 and is rejected (1 ≠ 2). -/
theorem C5_witness :
    runFrom dW.state_diagram dW.q [98] = some dW.q ∧
    dW.execute [98] = some (decide (dW.q = dW.f)) :=
  C5_stall_on_miss dW 98 [(97, 2)] rfl (by decide)

/-- C6 (counterexample): the claim's first-match rule fails when the first
inserted transition is a self-loop.  Inserting (1, 97, 1) and then
(1, 97, 2) — two transitions from source 1 on symbol 97 with different
targets — a step on 97 from state 1 yields target 2 of the second inserted
pair, not target 1 of the first. -/
theorem C6_counterexample :
    ((insertEdge emptyStateDiagram 1 97 1).bind fun sd1 =>
        insertEdge sd1 1 97 2).map (fun sd2 => stepState sd2 1 97) =
      some (some 2) ∧
    ¬(((insertEdge emptyStateDiagram 1 97 1).bind fun sd1 =>
        insertEdge sd1 1 97 2).map (fun sd2 => stepState sd2 1 97) =
      some (some 1)) := ⟨rfl, by decide⟩

/-- C6 (amended): first-match-wins among eligible pairs — for a source
state with two transitions inserted on the same symbol with different
targets, where the earlier inserted target differs from the source state
(it is not a self-loop) and no previously present pair of the source is
takeable on that symbol, a step on that symbol takes the earlier inserted
transition. -/
theorem C6_first_eligible_wins (sd sd1 sd2 : StateDiagram)
    (src s t1 t2 : Int) (adj : List (Int × Int))
    (hadj : getState sd src = some adj)
    (hmiss : ∀ p ∈ adj, ¬(p.1 = s ∧ p.2 ≠ src))
    (h1 : insertEdge sd src s t1 = some sd1)
    (h2 : insertEdge sd1 src s t2 = some sd2)
    (hne : t1 ≠ t2) (ht1 : t1 ≠ src) :
    stepState sd2 src s = some t1 := by
  obtain ⟨hb, he1, -⟩ := insertEdge_some h1
  obtain ⟨-, he2, -⟩ := insertEdge_some h2
  have hadj' : adj = sd.states src := by
    rw [getState, if_pos hb, Option.some_inj] at hadj
    exact hadj.symm
  have hsd2 : sd2.states src = adj ++ ([(s, t1)] ++ [(s, t2)]) := by
    rw [he2, he1, hadj', List.append_assoc]
  rw [stepState, getState, if_pos hb, Option.map_some', hsd2,
    stepAdj_append_skip adj _ src s hmiss]
  rw [List.singleton_append, stepAdj, if_pos ⟨rfl, ht1⟩]

/-- C6 (witness): inserting (1, 97, 2) then (1, 97, 3) into the empty
diagram, a step on 97 from state 1 takes the first inserted transition,
target 2. -/
theorem C6_witness : stepState sdW6b 1 97 = some 2 :=
  C6_first_eligible_wins emptyStateDiagram sdW6a sdW6b 1 97 2 3 []
    rfl (by simp) rfl rfl (by decide) (by decide)

/-- C7: round-trip scenario — the automaton built from the description
`1` / `2` / `1: 97 2 | 98 3` / `2: 97 1` / `3: 98 1` accepts "a" ([97]) and
"ab" ([97, 98]) and rejects "b" ([98]) and the empty input. -/
theorem C7_round_trip :
    (build_dfa_from_file ["1", "2", "1: 97 2 | 98 3", "2: 97 1", "3: 98 1"]).map
        (fun d => (d.execute [97], d.execute [97, 98], d.execute [98], d.execute [])) =
      .ok (some true, some true, some false, some false) := rfl

/-- C8: determinism — the result of evaluate depends only on the built
automaton (diagram, initial state, accepting state); two evaluations of
the same built automaton on the same input yield the same result. -/
theorem C8_deterministic (d1 d2 : DFA) (input : List Int)
    (hsd : d1.state_diagram = d2.state_diagram) (hq : d1.q = d2.q)
    (hf : d1.f = d2.f) :
    d1.execute input = d2.execute input := by
  rw [DFA.execute, DFA.execute, hsd, hq, hf]

/-- C8 (witness): `dW` and `dW'`, two declarations of the same built
automaton, evaluate `[97]` identically. -/
theorem C8_witness : dW.execute [97] = dW'.execute [97] :=
  C8_deterministic dW dW' [97] rfl rfl rfl

/-- C9: frame — evaluation does not mutate the table or the configuration:
with the object state threaded through every member call, `execute` returns
exactly the pure result paired with the unchanged automaton (same outgoing
lists, same initial and accepting identifiers). -/
theorem C9_frame (d : DFA) (input : List Int) :
    d.executeM input = (d.execute input).map fun b => (b, d) := by
  rw [DFA.executeM, DFA.execute, runFromM_eq]
  cases runFrom d.state_diagram d.q input with
  | none => rfl
  | some c => rfl

/-- C10: evaluation composes over concatenation — the loop on `s1 ++ s2`
from any state equals the loop on `s2` started from the state the loop on
`s1` reaches, and evaluate on `s1 ++ s2` compares that composed final state
with the accepting identifier. -/
theorem C10_append_compose (d : DFA) (cur : Int) (s1 s2 : List Int) :
    runFrom d.state_diagram cur (s1 ++ s2) =
      ((runFrom d.state_diagram cur s1).bind fun c =>
        runFrom d.state_diagram c s2) ∧
    d.execute (s1 ++ s2) =
      (((runFrom d.state_diagram d.q s1).bind fun c =>
        runFrom d.state_diagram c s2).map fun c => decide (c = d.f)) := by
  refine ⟨runFrom_append _ _ _ _, ?_⟩
  rw [DFA.execute, runFrom_append]

end DFACpp
